import Mathlib

/-!
Shallow embedding of `src/main.rs` of the terminal-in-terminal viewer
(`term_emu_poc`): the colour-palette reducer, the size translator, the frame
renderer and the I/O-multiplexing event loop, together with proofs of the
specified properties.

External collaborators (the alacritty parser/grid, the PTY and the pancurses
window) are modelled at their interface boundary: the parser is an arbitrary
function advancing the grid state one byte at a time, PTY reads/writes and
keyboard reads are oracles (one result per call), and window drawing calls are
recorded as a list of operations.
-/

namespace TermEmu

/-! ## pancurses colour constants (ncurses values) -/

def COLOR_BLACK : Int := 0
def COLOR_RED : Int := 1
def COLOR_GREEN : Int := 2
def COLOR_YELLOW : Int := 3
def COLOR_BLUE : Int := 4
def COLOR_MAGENTA : Int := 5
def COLOR_CYAN : Int := 6
def COLOR_WHITE : Int := 7

/-- `const COLOUR_INDEXES: [i16; 8]` from `src/main.rs`. -/
def COLOUR_INDEXES : List Int :=
  [COLOR_WHITE, COLOR_RED, COLOR_GREEN, COLOR_BLUE,
   COLOR_CYAN, COLOR_MAGENTA, COLOR_YELLOW, COLOR_BLACK]

/-- `fn get_colour_index(c: i16) -> usize`: a linear search with the range
`1..COLOUR_INDEXES.len()-1` (indexes 1 through 6), returning the first match
and defaulting to 0. -/
def get_colour_index (c : Int) : Nat :=
  match (List.range' 1 (COLOUR_INDEXES.length - 2)).find?
      (fun i => c == COLOUR_INDEXES.getD i 0) with
  | some i => i
  | none => 0

/-- The loop `for i in 0..COLOUR_INDEXES.len()-1 { pancurses::init_pair(i, ...) }`
in `main`: the pair indexes registered at startup. -/
def initPairIndexes : List Nat := List.range (COLOUR_INDEXES.length - 1)

/-- Modelled from the spec: the first index at which a colour value occurs in
the full 8-entry palette table (the reading under which the reducer searches
the whole table). Used only to compare with `get_colour_index`. -/
def specFirstIndex (c : Int) : Option Nat :=
  (List.range COLOUR_INDEXES.length).find? (fun i => c == COLOUR_INDEXES.getD i 0)

/-! ## Size translator -/

/-- `SizeInfo` from alacritty, as populated by `new_size_info`. The source
stores `f32` values; every value the program ever stores is a small integer
(window dimensions minus 2, unit cells, zero padding), for which the `f32`
conversion is exact, so the fields are modelled as `Int`. -/
structure SizeInfo where
  width : Int
  height : Int
  cell_width : Int
  cell_height : Int
  padding_x : Int
  padding_y : Int
deriving DecidableEq, Repr

/-- `fn new_size_info(w: i32, h: i32) -> SizeInfo`. -/
def new_size_info (w h : Int) : SizeInfo :=
  { width := w, height := h, cell_width := 1, cell_height := 1,
    padding_x := 0, padding_y := 0 }

/-- The size translation `main` performs at startup and on resize:
`let (y, x) = win.get_max_yx(); new_size_info(x - 2, y - 2)`. -/
def translate (x y : Int) : SizeInfo := new_size_info (x - 2) (y - 2)

/-! ## UTF-8 encoding of one character

`Input::Character(c)` is encoded with `c.encode_utf8` into a buffer of
`c.len_utf8()` bytes: the minimal UTF-8 encoding. -/

def utf8Encode (c : Char) : List Nat :=
  let v := c.toNat
  if v < 0x80 then [v]
  else if v < 0x800 then
    [0xC0 ||| (v >>> 6), 0x80 ||| (v &&& 0x3F)]
  else if v < 0x10000 then
    [0xE0 ||| (v >>> 12), 0x80 ||| ((v >>> 6) &&& 0x3F), 0x80 ||| (v &&& 0x3F)]
  else
    [0xF0 ||| (v >>> 18), 0x80 ||| ((v >>> 12) &&& 0x3F),
     0x80 ||| ((v >>> 6) &&& 0x3F), 0x80 ||| (v &&& 0x3F)]

/-! ## Grid data model (the alacritty collaborator's interface) -/

/-- `alacritty::ansi::NamedColor`: the named colours matched in
`render_term_to_win`. -/
inductive NamedColor where
  | background | black | blue | brightBlack | brightBlue | brightCyan
  | brightGreen | brightMagenta | brightRed | brightWhite | brightYellow
  | cursor | cursorText | cyan | dimBlack | dimBlue | dimCyan | dimGreen
  | dimMagenta | dimRed | dimWhite | dimYellow | foreground | green
  | magenta | red | white | yellow
deriving DecidableEq, Repr

/-- `alacritty::ansi::Color`: a cell's foreground colour tag. -/
inductive Color where
  | named (n : NamedColor)
  | spec (r g b : Nat)
  | indexed (i : Nat)
deriving DecidableEq, Repr

/-- A grid cell: character `c` and foreground colour `fg`. -/
structure Cell where
  c : Char
  fg : Color
deriving DecidableEq, Repr

/-- The state of `alacritty::Term` that the renderer reads: the grid as a list
of lines of cells, and the cursor point. -/
structure Term where
  grid : List (List Cell)
  cursorLine : Nat
  cursorCol : Nat
deriving DecidableEq, Repr

/-- The `match name { ... }` table in `render_term_to_win` mapping each named
colour to a pancurses colour constant. -/
def namedColourCode : NamedColor → Int
  | .background => COLOR_BLACK
  | .black => COLOR_BLACK
  | .blue => COLOR_BLUE
  | .brightBlack => COLOR_BLACK
  | .brightBlue => COLOR_BLUE
  | .brightCyan => COLOR_CYAN
  | .brightGreen => COLOR_GREEN
  | .brightMagenta => COLOR_MAGENTA
  | .brightRed => COLOR_RED
  | .brightWhite => COLOR_WHITE
  | .brightYellow => COLOR_YELLOW
  | .cursor => COLOR_BLACK
  | .cursorText => COLOR_WHITE
  | .cyan => COLOR_CYAN
  | .dimBlack => COLOR_BLACK
  | .dimBlue => COLOR_BLUE
  | .dimCyan => COLOR_CYAN
  | .dimGreen => COLOR_GREEN
  | .dimMagenta => COLOR_MAGENTA
  | .dimRed => COLOR_RED
  | .dimWhite => COLOR_WHITE
  | .dimYellow => COLOR_YELLOW
  | .foreground => COLOR_WHITE
  | .green => COLOR_GREEN
  | .magenta => COLOR_MAGENTA
  | .red => COLOR_RED
  | .white => COLOR_WHITE
  | .yellow => COLOR_YELLOW

/-! ## Frame renderer -/

/-- `enum RenderError`. -/
inductive RenderError where
  | colourSpecFound
  | colourIndexFound
deriving DecidableEq, Repr

/-- A call into the pancurses window collaborator, recorded in the order the
renderer performs it. -/
inductive DrawOp where
  | clear
  | mvaddch (y x : Int) (c : Char)
  | attrset (pair : Nat)
  | mv (y x : Int)
  | refresh
deriving DecidableEq, Repr

/-- The two border loops of `render_term_to_win` over window dimensions
`(y, x)` from `win.get_max_yx()`. -/
def borderOps (y x : Int) (bc : Char) : List DrawOp :=
  (((List.range y.toNat).map fun i =>
      [DrawOp.mvaddch i 0 bc, DrawOp.mvaddch i (x - 1) bc]).flatten)
  ++ (((List.range x.toNat).map fun i =>
      [DrawOp.mvaddch 0 i bc, DrawOp.mvaddch (y - 1) i bc]).flatten)

/-- The inner `while col < grid.num_cols()` loop over the cells of line
`li`, starting at column `ci`: the window calls made, and the error, if any,
that aborts the walk. -/
def renderRowCells (li : Nat) : Nat → List Cell → List DrawOp × Option RenderError
  | _, [] => ([], none)
  | ci, cell :: rest =>
    match cell.fg with
    | .named name =>
        let code := namedColourCode name
        let (ops, res) := renderRowCells li (ci + 1) rest
        ([DrawOp.attrset (get_colour_index code),
          DrawOp.mvaddch ((li : Int) + 1) ((ci : Int) + 1) cell.c] ++ ops, res)
    | .spec _ _ _ => ([], some RenderError.colourSpecFound)
    | .indexed _ => ([], some RenderError.colourIndexFound)

/-- The outer `while line < grid.num_lines()` loop, starting at line `li`. -/
def renderCells : Nat → List (List Cell) → List DrawOp × Option RenderError
  | _, [] => ([], none)
  | li, row :: rest =>
    match renderRowCells li 0 row with
    | (ops, some e) => (ops, some e)
    | (ops, none) =>
        let (ops', res) := renderCells (li + 1) rest
        (ops ++ ops', res)

/-- `fn render_term_to_win(term, win, border_char) -> RenderResult`: the window
calls performed and the result. `(y, x)` are the window dimensions. On a
cell with an unsupported colour the function returns the error immediately;
the cursor move and refresh happen only on success. -/
def render_term_to_win (t : Term) (y x : Int) (bc : Char) :
    List DrawOp × Option RenderError :=
  let pre := DrawOp.clear :: borderOps y x bc
  match renderCells 0 t.grid with
  | (ops, some e) => (pre ++ ops, some e)
  | (ops, none) =>
      (pre ++ ops
        ++ [DrawOp.mv ((t.cursorLine : Int) + 1) ((t.cursorCol : Int) + 1),
            DrawOp.refresh], none)

/-- The `match err { ColourSpecFound => "specification", ColourIndexFound =>
"index" }` in `main`. -/
def colourTypeStr : RenderError → String
  | .colourSpecFound => "specification"
  | .colourIndexFound => "index"

/-- The exit reason `main` records when the renderer fails. -/
def colourMsg (e : RenderError) : String :=
  "encountered a colour " ++ colourTypeStr e ++ ", which isn't currently supported"

/-! ## I/O model: errors, read results, keyboard input -/

/-- The `std::io::ErrorKind` values the loop distinguishes, plus
representatives of the "any other kind" class. -/
inductive ErrorKind where
  | other | interrupted | wouldBlock | permissionDenied | notFound | brokenPipe
deriving DecidableEq, Repr

/-- An `std::io::Error`: its kind, its `raw_os_error()` and its display text. -/
structure IoError where
  kind : ErrorKind
  rawOsError : Option Int
  msg : String
deriving DecidableEq, Repr

/-- The result of one `ptyf.read(&mut buf[..])` call: `Ok(n)` is carried as
the `n` bytes placed in the buffer (at most 0x1000 of them). -/
inductive ReadResult where
  | ok (bytes : List Nat)
  | err (e : IoError)
deriving DecidableEq, Repr

/-- The result of one `ptyf.write(&bytes[..])` call. -/
inductive WriteRes where
  | ok (n : Nat)
  | err (e : IoError)
deriving DecidableEq, Repr

/-- The `pancurses::Input` variants the loop matches: a character, a resize
notification, or anything else (matched by `_`). -/
inductive Input where
  | character (c : Char)
  | keyResize
  | keyOther (desc : String)
deriving DecidableEq, Repr

/-- Debug text for the `format!("unhandled input: {:?}", input)` reason. -/
def inputDebug : Input → String
  | .character c => "Character(" ++ String.mk [c] ++ ")"
  | .keyResize => "KeyResize"
  | .keyOther d => d

/-- `const OS_IO_ERROR: i32 = 5`. -/
def OS_IO_ERROR : Int := 5

/-- The kind/os-code debug text of the
`format!("couldn't read from PTY (error kind: {:?}, os error: {:?}): {}", ...)`
reasons (the write-error arm reuses the same wording, a copy of the read one). -/
def kindDebug : ErrorKind → String
  | .other => "Other"
  | .interrupted => "Interrupted"
  | .wouldBlock => "WouldBlock"
  | .permissionDenied => "PermissionDenied"
  | .notFound => "NotFound"
  | .brokenPipe => "BrokenPipe"

def osDebug : Option Int → String
  | none => "None"
  | some n => "Some(" ++ toString n ++ ")"

def ioErrMsg (e : IoError) : String :=
  "couldn't read from PTY (error kind: " ++ kindDebug e.kind
    ++ ", os error: " ++ osDebug e.rawOsError ++ "): " ++ e.msg

/-! ## Event loop -/

/-- `let border_chars = ['*', '+', '-'];` -/
def border_chars : List Char := ['*', '+', '-']

/-- The loop's mutable state across iterations: the terminal grid state and
`cur_border_char` (`exit_reason` is carried in the iteration's outcome). -/
structure LoopState where
  term : Term
  curBorderChar : Nat
deriving DecidableEq, Repr

/-- One observable step the loop performs, in order within an iteration:
feeding one byte to `parser.advance`, invoking the renderer, consuming one
keyboard event from `win.getch()`, one `ptyf.write` call (the bytes offered
and the bytes the PTY accepted), and the two resize calls. -/
inductive Action where
  | advance (b : Nat)
  | render (bc : Char)
  | consumeInput (i : Input)
  | writeCall (offered accepted : List Nat)
  | termResize (s : SizeInfo)
  | ptyResize (s : SizeInfo)
deriving DecidableEq, Repr

/-- Outcome of a phase or of a whole iteration: `halt r` is `break 'evt_loop`
with `exit_reason = r`; `next` continues to the next phase/iteration;
`stuck` is a model artifact marking that the supplied write-result oracle ran
out before the write loop finished. -/
inductive IterOut where
  | halt (reason : Option String) (acts : List Action)
  | next (st : LoopState) (acts : List Action)
  | stuck (acts : List Action)
deriving DecidableEq, Repr

/-- The actions an outcome carries. -/
def IterOut.acts : IterOut → List Action
  | .halt _ a => a
  | .next _ a => a
  | .stuck a => a

/-- Record actions `a` as having happened before those of an outcome. -/
def IterOut.prepend (a : List Action) : IterOut → IterOut
  | .halt r acts => .halt r (a ++ acts)
  | .next st acts => .next st (a ++ acts)
  | .stuck acts => .stuck (a ++ acts)

/-- The `while i < utf8_len` write-retry loop. `bytes` is the encoded
character; note the source offers the WHOLE buffer `&bytes[..]` on every call,
so a call accepting `n` bytes transmits `bytes.take n`, regardless of the
progress counter `i`. `results` is the oracle of outcomes of successive
`ptyf.write` calls. -/
def writeLoop (bytes : List Nat) : List WriteRes → Nat → IterOut
  | [], i =>
    if i < bytes.length then .stuck []
    else .next { term := { grid := [], cursorLine := 0, cursorCol := 0 },
                 curBorderChar := 0 } []
  | r :: rest, i =>
    if i < bytes.length then
      match r with
      | .ok 0 => .halt (some "PTY is unable to accept bytes")
                   [Action.writeCall bytes []]
      | .ok (n + 1) =>
          (writeLoop bytes rest (i + (n + 1))).prepend
            [Action.writeCall bytes (bytes.take (n + 1))]
      | .err e =>
          if e.kind != ErrorKind.interrupted && e.kind != ErrorKind.wouldBlock then
            .halt (some (ioErrMsg e)) [Action.writeCall bytes []]
          else
            (writeLoop bytes rest i).prepend [Action.writeCall bytes []]
    else .next { term := { grid := [], cursorLine := 0, cursorCol := 0 },
                 curBorderChar := 0 } []

/-- `writeLoop` does not know the loop state; its `next` carries a dummy
state. `writeLoopRun` is the wrapper giving the real continuation state. -/
def writeLoopRun (st : LoopState) (bytes : List Nat) (rs : List WriteRes) : IterOut :=
  match writeLoop bytes rs 0 with
  | .halt reason acts => .halt reason acts
  | .next _ acts => .next st acts
  | .stuck acts => .stuck acts

/-- Phase 1 of an iteration: the `match ptyf.read(&mut buf[..])` arms.
`adv` is the external `parser.advance` step; `(y, x)` the window dimensions. -/
def readPhase (adv : Term → Nat → Term) (y x : Int) (st : LoopState)
    (r : ReadResult) : IterOut :=
  match r with
  | .ok [] => .halt none []
  | .ok bs =>
      let term' := bs.foldl adv st.term
      let bc := border_chars.getD st.curBorderChar ' '
      let acts := bs.map Action.advance ++ [Action.render bc]
      match (render_term_to_win term' y x bc).2 with
      | some e => .halt (some (colourMsg e)) acts
      | none => .next { st with term := term' } acts
  | .err e =>
      if e.kind == ErrorKind.other && e.rawOsError == some OS_IO_ERROR then
        .halt none []
      else if e.kind != ErrorKind.interrupted && e.kind != ErrorKind.wouldBlock then
        .halt (some (ioErrMsg e)) []
      else
        .next st []

/-- Phase 2 of an iteration: the `if let Some(input) = win.getch()` block.
`tres` is the external `term.resize` effect on the grid state; `(y, x)` the
window dimensions; `ws` the oracle of `ptyf.write` results. -/
def inputPhase (tres : Term → SizeInfo → Term) (y x : Int) (ws : List WriteRes)
    (st : LoopState) (inp : Option Input) : IterOut :=
  match inp with
  | none => .next st []
  | some input =>
    let consumed := [Action.consumeInput input]
    match input with
    | .character c =>
        let bytes := utf8Encode c
        if bytes.length == 1 && bytes.getD 0 0 == 4 then
          let newIdx := (st.curBorderChar + 1) % border_chars.length
          let bc := border_chars.getD newIdx ' '
          match (render_term_to_win st.term y x bc).2 with
          | some e => .halt (some (colourMsg e)) (consumed ++ [Action.render bc])
          | none => .next { st with curBorderChar := newIdx }
                      (consumed ++ [Action.render bc])
        else
          (writeLoopRun st bytes ws).prepend consumed
    | .keyResize =>
        let size := new_size_info (x - 2) (y - 2)
        .next { st with term := tres st.term size }
          (consumed ++ [Action.termResize size, Action.ptyResize size])
    | .keyOther _ =>
        .halt (some ("unhandled input: " ++ inputDebug input)) consumed

/-- One full iteration of `'evt_loop`: phase 1, then, when it continues,
phase 2; the recorded actions are concatenated in execution order. -/
def iteration (adv : Term → Nat → Term) (tres : Term → SizeInfo → Term)
    (y x : Int) (ws : List WriteRes) (st : LoopState)
    (r : ReadResult) (inp : Option Input) : IterOut :=
  match readPhase adv y x st r with
  | .halt reason acts => .halt reason acts
  | .stuck acts => .stuck acts
  | .next st' acts => (inputPhase tres y x ws st' inp).prepend acts

/-! ## Trace classification helpers -/

def isAdvanceA : Action → Bool
  | .advance _ => true
  | _ => false

def isRenderA : Action → Bool
  | .render _ => true
  | _ => false

def isConsumeA : Action → Bool
  | .consumeInput _ => true
  | _ => false

def isWriteA : Action → Bool
  | .writeCall _ _ => true
  | _ => false

def isTermResizeA : Action → Bool
  | .termResize _ => true
  | _ => false

def isPtyResizeA : Action → Bool
  | .ptyResize _ => true
  | _ => false

/-- Whether a trace contains a renderer invocation. -/
def hasRender (acts : List Action) : Bool := acts.any isRenderA

/-- How many keyboard events a trace consumes. -/
def countConsumed (acts : List Action) : Nat := acts.countP isConsumeA

/-- The bytes the PTY actually receives over a trace: the concatenation of the
accepted bytes of its write calls. -/
def transmitted (acts : List Action) : List Nat :=
  (acts.map fun a =>
    match a with
    | .writeCall _ accepted => accepted
    | _ => []).flatten

/-- The renderer's classification of a foreground colour: the error its arm
returns, or `none` for the supported named-colour arm. -/
def offendCat : Color → Option RenderError
  | .spec _ _ _ => some RenderError.colourSpecFound
  | .indexed _ => some RenderError.colourIndexFound
  | .named _ => none

/-! ## Helper lemmas -/

@[simp]
lemma IterOut.acts_prepend (a : List Action) (o : IterOut) :
    (IterOut.prepend a o).acts = a ++ o.acts := by
  cases o <;> rfl

lemma prepend_halt {a : List Action} {o : IterOut} {r : Option String}
    {acts : List Action} (h : IterOut.prepend a o = .halt r acts) :
    ∃ acts0, o = .halt r acts0 ∧ acts = a ++ acts0 := by
  cases o with
  | halt r0 a0 =>
      simp [IterOut.prepend] at h
      exact ⟨a0, by rw [h.1], h.2.symm⟩
  | next st0 a0 => simp [IterOut.prepend] at h
  | stuck a0 => simp [IterOut.prepend] at h

lemma writeLoop_acts_writes (bytes : List Nat) :
    ∀ (rs : List WriteRes) (i : Nat), ∀ a ∈ (writeLoop bytes rs i).acts,
      isWriteA a = true := by
  intro rs
  induction rs with
  | nil =>
      intro i a ha
      by_cases h : i < bytes.length <;> simp [writeLoop, h, IterOut.acts] at ha
  | cons r rest ih =>
      intro i a ha
      by_cases h : i < bytes.length
      · cases r with
        | ok n =>
            cases n with
            | zero =>
                simp [writeLoop, h, IterOut.acts] at ha
                subst ha; rfl
            | succ m =>
                simp [writeLoop, h] at ha
                rcases ha with ha | ha
                · subst ha; rfl
                · exact ih _ a ha
        | err e =>
            cases hcond : (e.kind != ErrorKind.interrupted
                && e.kind != ErrorKind.wouldBlock) with
            | true =>
                simp [writeLoop, h, hcond, IterOut.acts] at ha
                subst ha; rfl
            | false =>
                simp [writeLoop, h, hcond] at ha
                rcases ha with ha | ha
                · subst ha; rfl
                · exact ih _ a ha
      · simp [writeLoop, h, IterOut.acts] at ha

lemma writeLoop_halt_reason (bytes : List Nat) :
    ∀ (rs : List WriteRes) (i : Nat) (r : Option String) (acts : List Action),
      writeLoop bytes rs i = .halt r acts → ∃ s, r = some s := by
  intro rs
  induction rs with
  | nil =>
      intro i r acts h
      by_cases hi : i < bytes.length <;> simp [writeLoop, hi] at h
  | cons w rest ih =>
      intro i r acts h
      by_cases hi : i < bytes.length
      · cases w with
        | ok n =>
            cases n with
            | zero =>
                simp [writeLoop, hi] at h
                exact ⟨_, h.1.symm⟩
            | succ m =>
                simp only [writeLoop, hi, if_true] at h
                obtain ⟨acts0, h0, -⟩ := prepend_halt h
                exact ih _ _ _ h0
        | err e =>
            cases hcond : (e.kind != ErrorKind.interrupted
                && e.kind != ErrorKind.wouldBlock) with
            | true =>
                simp [writeLoop, hi, hcond] at h
                exact ⟨_, h.1.symm⟩
            | false =>
                simp only [writeLoop, hi, hcond, if_true, Bool.false_eq_true,
                  if_false] at h
                obtain ⟨acts0, h0, -⟩ := prepend_halt h
                exact ih _ _ _ h0
      · simp [writeLoop, hi] at h

lemma writeLoopRun_halt_reason (st : LoopState) (bytes : List Nat)
    (ws : List WriteRes) (r : Option String) (acts : List Action)
    (h : writeLoopRun st bytes ws = .halt r acts) : ∃ s, r = some s := by
  unfold writeLoopRun at h
  rcases hw : writeLoop bytes ws 0 with ⟨r0, a0⟩ | ⟨s0, a0⟩ | a0 <;> rw [hw] at h <;>
    simp at h
  obtain ⟨h1, -⟩ := h
  subst h1
  exact writeLoop_halt_reason bytes ws 0 r0 a0 hw

lemma writeLoopRun_acts_writes (st : LoopState) (bytes : List Nat)
    (ws : List WriteRes) :
    ∀ a ∈ (writeLoopRun st bytes ws).acts, isWriteA a = true := by
  intro a ha
  unfold writeLoopRun at ha
  rcases hw : writeLoop bytes ws 0 with ⟨r0, a0⟩ | ⟨s0, a0⟩ | a0 <;> rw [hw] at ha <;>
    simp [IterOut.acts] at ha <;>
    exact writeLoop_acts_writes bytes ws 0 a (by rw [hw]; simpa [IterOut.acts])

/-- A trace made of write calls only: the counts every claim needs. -/
lemma writes_only_counts {l : List Action} (hw : ∀ a ∈ l, isWriteA a = true) :
    countConsumed l = 0 ∧ l.countP isAdvanceA = 0 ∧ hasRender l = false ∧
    l.countP isTermResizeA = 0 ∧ l.countP isPtyResizeA = 0 := by
  refine ⟨?_, ?_, ?_, ?_, ?_⟩
  · exact List.countP_eq_zero.mpr fun a ha => by
      have := hw a ha; cases a <;> simp_all [isWriteA, isConsumeA]
  · exact List.countP_eq_zero.mpr fun a ha => by
      have := hw a ha; cases a <;> simp_all [isWriteA, isAdvanceA]
  · simp only [hasRender, List.any_eq_false]
    intro a ha
    have := hw a ha; cases a <;> simp_all [isWriteA, isRenderA]
  · exact List.countP_eq_zero.mpr fun a ha => by
      have := hw a ha; cases a <;> simp_all [isWriteA, isTermResizeA]
  · exact List.countP_eq_zero.mpr fun a ha => by
      have := hw a ha; cases a <;> simp_all [isWriteA, isPtyResizeA]

/-- `render_term_to_win` fails exactly when the cell walk fails, with the
same error. -/
lemma render_snd (t : Term) (y x : Int) (bc : Char) :
    (render_term_to_win t y x bc).2 = (renderCells 0 t.grid).2 := by
  unfold render_term_to_win
  rcases h : renderCells 0 t.grid with ⟨ops, e⟩
  cases e <;> simp [h]

/-- The character-4 test `utf8_len == 1 && bytes[0] == 4` holds exactly for
the encoding `[4]`. -/
lemma ctrl_cond_iff (l : List Nat) :
    ((l.length == 1 && l.getD 0 0 == 4) = true) ↔ l = [4] := by
  cases l with
  | nil => simp
  | cons b tl => cases tl <;> simp [List.getD]

lemma inputPhase_halt_reason (tres : Term → SizeInfo → Term) (y x : Int)
    (ws : List WriteRes) (st : LoopState) (inp : Option Input)
    (r : Option String) (acts : List Action)
    (h : inputPhase tres y x ws st inp = .halt r acts) : ∃ s, r = some s := by
  cases inp with
  | none => simp [inputPhase] at h
  | some input =>
      cases input with
      | character c =>
          simp only [inputPhase] at h
          cases hc : ((utf8Encode c).length == 1 && (utf8Encode c).getD 0 0 == 4) with
          | true =>
              rw [hc] at h
              simp only [if_true] at h
              rcases hr : (render_term_to_win st.term y x
                  (border_chars.getD ((st.curBorderChar + 1) % border_chars.length)
                    ' ')).2 with - | e <;> rw [hr] at h <;> simp at h
              exact ⟨_, h.1.symm⟩
          | false =>
              rw [hc] at h
              simp only [Bool.false_eq_true, if_false] at h
              obtain ⟨acts0, h0, -⟩ := prepend_halt h
              exact writeLoopRun_halt_reason _ _ _ _ _ h0
      | keyResize => simp [inputPhase] at h
      | keyOther d =>
          simp [inputPhase] at h
          exact ⟨_, h.1.symm⟩

lemma inputPhase_consume_facts (tres : Term → SizeInfo → Term) (y x : Int)
    (ws : List WriteRes) (st : LoopState) (inp : Option Input) :
    countConsumed (inputPhase tres y x ws st inp).acts ≤ 1 ∧
    (inputPhase tres y x ws st inp).acts.countP isAdvanceA = 0 ∧
    ((inputPhase tres y x ws st inp).acts = [] ∨
      ∃ j rest, (inputPhase tres y x ws st inp).acts = Action.consumeInput j :: rest) := by
  cases inp with
  | none => simp [inputPhase, countConsumed, IterOut.acts]
  | some input =>
      cases input with
      | character c =>
          simp only [inputPhase]
          cases hc : ((utf8Encode c).length == 1 && (utf8Encode c).getD 0 0 == 4) with
          | true =>
              simp only [if_true]
              rcases hr : (render_term_to_win st.term y x
                  (border_chars.getD ((st.curBorderChar + 1) % border_chars.length)
                    ' ')).2 with - | e <;>
                simp [hr, countConsumed, IterOut.acts, isConsumeA, isAdvanceA]
          | false =>
              simp only [Bool.false_eq_true, if_false]
              obtain ⟨hcc, hca, -, -, -⟩ :=
                writes_only_counts (writeLoopRun_acts_writes st (utf8Encode c) ws)
              simp only [countConsumed] at hcc
              refine ⟨?_, ?_, Or.inr ⟨Input.character c,
                (writeLoopRun st (utf8Encode c) ws).acts, by simp⟩⟩
              · simp only [IterOut.acts_prepend, countConsumed]
                simp [List.countP_cons, List.countP_append, isConsumeA, hcc]
              · simp only [IterOut.acts_prepend]
                simp [List.countP_cons, List.countP_append, isAdvanceA, hca]
      | keyResize =>
          simp [inputPhase, countConsumed, IterOut.acts, List.countP_cons,
            isConsumeA, isAdvanceA]
      | keyOther d =>
          simp [inputPhase, countConsumed, IterOut.acts, List.countP_cons,
            isConsumeA, isAdvanceA]

lemma inputPhase_render_iff (tres : Term → SizeInfo → Term) (y x : Int)
    (ws : List WriteRes) (st : LoopState) (inp : Option Input) :
    hasRender (inputPhase tres y x ws st inp).acts = true ↔
      (∃ c, inp = some (Input.character c) ∧ utf8Encode c = [4]) := by
  cases inp with
  | none => simp [inputPhase, hasRender, IterOut.acts]
  | some input =>
      cases input with
      | character c =>
          simp only [inputPhase]
          cases hc : ((utf8Encode c).length == 1 && (utf8Encode c).getD 0 0 == 4) with
          | true =>
              have h4 : utf8Encode c = [4] := (ctrl_cond_iff _).mp hc
              simp only [if_true]
              rcases hr : (render_term_to_win st.term y x
                  (border_chars.getD ((st.curBorderChar + 1) % border_chars.length)
                    ' ')).2 with - | e <;>
                simp [hr, hasRender, IterOut.acts, isRenderA, isConsumeA, h4]
          | false =>
              have h4 : ¬ utf8Encode c = [4] := fun hh =>
                by rw [(ctrl_cond_iff _).mpr hh] at hc; cases hc
              simp only [Bool.false_eq_true, if_false]
              obtain ⟨-, -, hrw, -, -⟩ :=
                writes_only_counts (writeLoopRun_acts_writes st (utf8Encode c) ws)
              simp only [hasRender] at hrw ⊢
              simp [hrw, isRenderA, h4]
      | keyResize => simp [inputPhase, hasRender, IterOut.acts, isRenderA]
      | keyOther d => simp [inputPhase, hasRender, IterOut.acts, isRenderA]

lemma readPhase_next_acts (adv : Term → Nat → Term) (y x : Int)
    (st st1 : LoopState) (r : ReadResult) (a1 : List Action)
    (h : readPhase adv y x st r = .next st1 a1) :
    ∀ a ∈ a1, isAdvanceA a = true ∨ isRenderA a = true := by
  cases r with
  | ok bs =>
      cases bs with
      | nil => simp [readPhase] at h
      | cons b tl =>
          simp only [readPhase] at h
          rcases hr : (render_term_to_win ((b :: tl).foldl adv st.term) y x
              (border_chars.getD st.curBorderChar ' ')).2 with - | e
          · rw [hr] at h
            simp at h
            obtain ⟨-, h2⟩ := h
            subst h2
            intro a ha
            simp at ha
            rcases ha with rfl | ⟨b0, hb0, rfl⟩ | rfl
            · exact Or.inl rfl
            · exact Or.inl rfl
            · exact Or.inr rfl
          · rw [hr] at h
            simp at h
  | err e =>
      simp only [readPhase] at h
      cases h1 : (e.kind == ErrorKind.other && e.rawOsError == some OS_IO_ERROR) with
      | true => rw [h1] at h; simp at h
      | false =>
          rw [h1] at h
          cases h2 : (e.kind != ErrorKind.interrupted
              && e.kind != ErrorKind.wouldBlock) with
          | true => rw [h2] at h; simp at h
          | false =>
              rw [h2] at h
              simp at h
              obtain ⟨-, h3⟩ := h
              subst h3
              intro a ha
              simp at ha

lemma readPhase_not_stuck (adv : Term → Nat → Term) (y x : Int)
    (st : LoopState) (r : ReadResult) (acts : List Action) :
    readPhase adv y x st r ≠ .stuck acts := by
  intro h
  cases r with
  | ok bs =>
      cases bs with
      | nil => simp [readPhase] at h
      | cons b tl =>
          simp only [readPhase] at h
          rcases hr : (render_term_to_win ((b :: tl).foldl adv st.term) y x
              (border_chars.getD st.curBorderChar ' ')).2 with - | e <;>
            rw [hr] at h <;> simp at h
  | err e =>
      simp only [readPhase] at h
      cases h1 : (e.kind == ErrorKind.other && e.rawOsError == some OS_IO_ERROR) with
      | true => rw [h1] at h; simp at h
      | false =>
          rw [h1] at h
          cases h2 : (e.kind != ErrorKind.interrupted
              && e.kind != ErrorKind.wouldBlock) with
          | true => rw [h2] at h; simp at h
          | false => rw [h2] at h; simp at h

lemma readPhase_halt_none_iff (adv : Term → Nat → Term) (y x : Int)
    (st : LoopState) (r : ReadResult) :
    (∃ tr, readPhase adv y x st r = .halt none tr) ↔
      (r = .ok [] ∨ ∃ e, r = .err e ∧ e.kind = ErrorKind.other ∧
        e.rawOsError = some OS_IO_ERROR) := by
  constructor
  · rintro ⟨tr, h⟩
    cases r with
    | ok bs =>
        cases bs with
        | nil => exact Or.inl rfl
        | cons b tl =>
            simp only [readPhase] at h
            rcases hr : (render_term_to_win ((b :: tl).foldl adv st.term) y x
                (border_chars.getD st.curBorderChar ' ')).2 with - | e <;>
              rw [hr] at h <;> simp at h
    | err e =>
        refine Or.inr ⟨e, rfl, ?_⟩
        simp only [readPhase] at h
        cases h1 : (e.kind == ErrorKind.other && e.rawOsError == some OS_IO_ERROR) with
        | true =>
            simpa using h1
        | false =>
            rw [h1] at h
            cases h2 : (e.kind != ErrorKind.interrupted
                && e.kind != ErrorKind.wouldBlock) with
            | true => rw [h2] at h; simp at h
            | false => rw [h2] at h; simp at h
  · rintro (h | ⟨e, he, hk, ho⟩)
    · subst h; exact ⟨[], rfl⟩
    · subst he
      refine ⟨[], ?_⟩
      simp only [readPhase]
      have h1 : (e.kind == ErrorKind.other && e.rawOsError == some OS_IO_ERROR) = true := by
        simp [hk, ho]
      rw [h1]
      simp

/-! ## Theorems -/

/-- C8: for all window dimensions `(x, y)` with `x, y ≥ 3`, the size
translator produces a geometry with `width = x - 2` and `height = y - 2`,
both at least 1, unit cell metrics, and zero padding. -/
theorem c8_size_translator (x y : Int) (hx : 3 ≤ x) (hy : 3 ≤ y) :
    (translate x y).width = x - 2 ∧ (translate x y).height = y - 2 ∧
    1 ≤ (translate x y).width ∧ 1 ≤ (translate x y).height ∧
    (translate x y).cell_width = 1 ∧ (translate x y).cell_height = 1 ∧
    (translate x y).padding_x = 0 ∧ (translate x y).padding_y = 0 :=
  ⟨rfl, rfl, by simp [translate, new_size_info]; omega,
   by simp [translate, new_size_info]; omega, rfl, rfl, rfl, rfl⟩

theorem c8_size_translator_witness :
    (translate 80 24).width = 80 - 2 ∧ (translate 80 24).height = 24 - 2 ∧
    1 ≤ (translate 80 24).width ∧ 1 ≤ (translate 80 24).height ∧
    (translate 80 24).cell_width = 1 ∧ (translate 80 24).cell_height = 1 ∧
    (translate 80 24).padding_x = 0 ∧ (translate 80 24).padding_y = 0 :=
  c8_size_translator 80 24 (by norm_num) (by norm_num)

/-- C10: for every input colour value, `get_colour_index` returns an index
for which `init_pair` was invoked at startup (indexes 0 through 6; index 7 is
never registered), and both `COLOR_WHITE` (table index 0) and `COLOR_BLACK`
(table index 7) map to pair index 0. -/
theorem c10_colour_index_registered : ∀ c : Int,
    get_colour_index c ∈ initPairIndexes ∧
    (7 : Nat) ∉ initPairIndexes ∧
    get_colour_index COLOR_WHITE = 0 ∧ get_colour_index COLOR_BLACK = 0 := by
  intro c
  refine ⟨?_, by decide, by decide, by decide⟩
  unfold get_colour_index
  cases hfind : (List.range' 1 (COLOUR_INDEXES.length - 2)).find?
      (fun i => c == COLOUR_INDEXES.getD i 0) with
  | none => decide
  | some i =>
      have hmem := List.mem_of_find?_eq_some hfind
      have hlit : List.range' 1 (COLOUR_INDEXES.length - 2) = [1, 2, 3, 4, 5, 6] := by
        decide
      rw [hlit] at hmem
      simp only [List.mem_cons, List.not_mem_nil, or_false] at hmem
      rcases hmem with h | h | h | h | h | h <;> subst h <;> decide

/-- C2 (counterexample): the claim says the reducer returns the first index at
which the value occurs in the 8-entry table; `COLOR_BLACK` occurs (first) at
table index 7, yet `get_colour_index COLOR_BLACK` is 0, not 7. -/
theorem c2_colour_reducer_counterexample :
    specFirstIndex COLOR_BLACK = some 7 ∧
    get_colour_index COLOR_BLACK = 0 ∧
    ¬ get_colour_index COLOR_BLACK = 7 := by decide

/-- C2 (amended): the reducer returns the first index at which the value
occurs among table positions 1 through 6 (the linear search skips position 0,
white, and position 7, black); a value occurring only at position 0 or 7, or
nowhere, maps to index 0. The function is pure and total. -/
theorem c2_colour_reducer_amended : ∀ c : Int,
    get_colour_index c =
      (match specFirstIndex c with
       | some i => if i = 0 ∨ i = 7 then 0 else i
       | none => 0) := by
  intro c
  by_cases h7 : c = 7
  · subst h7; decide
  by_cases h1 : c = 1
  · subst h1; decide
  by_cases h2 : c = 2
  · subst h2; decide
  by_cases h4 : c = 4
  · subst h4; decide
  by_cases h6 : c = 6
  · subst h6; decide
  by_cases h5 : c = 5
  · subst h5; decide
  by_cases h3 : c = 3
  · subst h3; decide
  by_cases h0 : c = 0
  · subst h0; decide
  have hg : get_colour_index c = 0 := by
    unfold get_colour_index
    have hnone : (List.range' 1 (COLOUR_INDEXES.length - 2)).find?
        (fun i => c == COLOUR_INDEXES.getD i 0) = none := by
      apply List.find?_eq_none.mpr
      intro a ha
      have hlit : List.range' 1 (COLOUR_INDEXES.length - 2) = [1, 2, 3, 4, 5, 6] := by
        decide
      rw [hlit] at ha
      simp only [List.mem_cons, List.not_mem_nil, or_false] at ha
      rcases ha with h | h | h | h | h | h <;> subst h <;>
        simp [COLOUR_INDEXES, COLOR_RED, COLOR_GREEN, COLOR_BLUE, COLOR_CYAN,
              COLOR_MAGENTA, COLOR_YELLOW] <;> omega
    rw [hnone]
  have hs : specFirstIndex c = none := by
    apply List.find?_eq_none.mpr
    intro a ha
    have hlit : List.range COLOUR_INDEXES.length = [0, 1, 2, 3, 4, 5, 6, 7] := by
      decide
    rw [hlit] at ha
    simp only [List.mem_cons, List.not_mem_nil, or_false] at ha
    rcases ha with h | h | h | h | h | h | h | h <;> subst h <;>
      simp [COLOUR_INDEXES, COLOR_WHITE, COLOR_RED, COLOR_GREEN, COLOR_BLUE,
            COLOR_CYAN, COLOR_MAGENTA, COLOR_YELLOW, COLOR_BLACK] <;> omega
  rw [hg, hs]

/-- C1 (code evaluated at the failing input): typing `é` (U+00E9, minimal
UTF-8 encoding `[0xC3, 0xA9]`) with a PTY accepting one byte per write call.
The write loop re-offers the whole buffer from index 0 on every call, so the
PTY receives `[0xC3, 0xC3]`: the cumulative accepted count equals the encoded
length, but the second encoded byte is never transmitted and the first is
transmitted twice, contradicting "every encoded byte is written exactly once,
in order". -/
theorem c1_write_loop_bug :
    utf8Encode (Char.ofNat 0xE9) = [0xC3, 0xA9] ∧
    (writeLoopRun { term := { grid := [], cursorLine := 0, cursorCol := 0 },
                    curBorderChar := 0 }
        [0xC3, 0xA9] [WriteRes.ok 1, WriteRes.ok 1]).acts =
      [Action.writeCall [0xC3, 0xA9] [0xC3], Action.writeCall [0xC3, 0xA9] [0xC3]] ∧
    transmitted [Action.writeCall [0xC3, 0xA9] [0xC3],
                 Action.writeCall [0xC3, 0xA9] [0xC3]] = [0xC3, 0xC3] ∧
    (transmitted [Action.writeCall [0xC3, 0xA9] [0xC3],
                  Action.writeCall [0xC3, 0xA9] [0xC3]]).length =
      (utf8Encode (Char.ofNat 0xE9)).length ∧
    [(0xC3 : Nat), 0xC3] ≠ [0xC3, 0xA9] := by decide

/-- C5: the event loop exits with no exit reason exactly when the PTY read
returns zero bytes or fails with kind `Other` and raw OS error code 5; every
other non-transient read error records a diagnostic exit reason. -/
theorem c5_clean_termination (adv : Term → Nat → Term)
    (tres : Term → SizeInfo → Term) (y x : Int) (ws : List WriteRes)
    (st : LoopState) (r : ReadResult) (inp : Option Input) :
    ((∃ tr, iteration adv tres y x ws st r inp = .halt none tr) ↔
      (r = .ok [] ∨ ∃ e, r = .err e ∧ e.kind = ErrorKind.other ∧
        e.rawOsError = some OS_IO_ERROR)) ∧
    (∀ e, r = .err e → e.kind ≠ ErrorKind.interrupted →
      e.kind ≠ ErrorKind.wouldBlock →
      ¬(e.kind = ErrorKind.other ∧ e.rawOsError = some OS_IO_ERROR) →
      iteration adv tres y x ws st r inp = .halt (some (ioErrMsg e)) []) := by
  constructor
  · constructor
    · rintro ⟨tr, h⟩
      rcases hrp : readPhase adv y x st r with ⟨r0, a0⟩ | ⟨st0, a0⟩ | a0
      · simp only [iteration, hrp] at h
        injection h with h1 h2
        subst h1
        exact (readPhase_halt_none_iff adv y x st r).mp ⟨a0, hrp⟩
      · simp only [iteration, hrp] at h
        obtain ⟨acts0, h0, -⟩ := prepend_halt h
        obtain ⟨s, hs⟩ := inputPhase_halt_reason tres y x ws st0 inp none acts0 h0
        cases hs
      · exact absurd hrp (readPhase_not_stuck adv y x st r a0)
    · intro hrhs
      obtain ⟨tr0, hrp⟩ := (readPhase_halt_none_iff adv y x st r).mpr hrhs
      exact ⟨tr0, by simp only [iteration, hrp]⟩
  · intro e hre hki hkw hno
    subst hre
    have h1 : (e.kind == ErrorKind.other && e.rawOsError == some OS_IO_ERROR)
        = false := by
      by_cases hk : e.kind = ErrorKind.other
      · have hr5 : e.rawOsError ≠ some OS_IO_ERROR := fun hr => hno ⟨hk, hr⟩
        simp [hk, hr5]
      · simp [hk]
    have h2 : (e.kind != ErrorKind.interrupted && e.kind != ErrorKind.wouldBlock)
        = true := by
      simp [hki, hkw]
    have hrp : readPhase adv y x st (.err e) = .halt (some (ioErrMsg e)) [] := by
      simp only [readPhase, h1, h2]
      simp
    simp only [iteration, hrp]

theorem c5_clean_termination_witness :
    (∃ tr, iteration (fun t _ => t) (fun t _ => t) 24 80 []
        { term := { grid := [], cursorLine := 0, cursorCol := 0 }, curBorderChar := 0 }
        (ReadResult.err { kind := ErrorKind.other, rawOsError := some 5, msg := "" })
        none = .halt none tr) ∧
    iteration (fun t _ => t) (fun t _ => t) 24 80 []
        { term := { grid := [], cursorLine := 0, cursorCol := 0 }, curBorderChar := 0 }
        (ReadResult.err { kind := ErrorKind.permissionDenied, rawOsError := some 13,
                          msg := "denied" })
        none =
      .halt (some (ioErrMsg { kind := ErrorKind.permissionDenied,
                              rawOsError := some 13, msg := "denied" })) [] :=
  ⟨(c5_clean_termination (fun t _ => t) (fun t _ => t) 24 80 []
      { term := { grid := [], cursorLine := 0, cursorCol := 0 }, curBorderChar := 0 }
      (ReadResult.err { kind := ErrorKind.other, rawOsError := some 5, msg := "" })
      none).1.mpr
      (Or.inr ⟨_, rfl, rfl, rfl⟩),
   (c5_clean_termination (fun t _ => t) (fun t _ => t) 24 80 []
      { term := { grid := [], cursorLine := 0, cursorCol := 0 }, curBorderChar := 0 }
      (ReadResult.err { kind := ErrorKind.permissionDenied, rawOsError := some 13,
                        msg := "denied" })
      none).2 _ rfl (by decide) (by decide) (by decide)⟩

lemma countConsumed_read_acts (bs : List Nat) (bc : Char) :
    countConsumed (bs.map Action.advance ++ [Action.render bc]) = 0 := by
  simp only [countConsumed, List.countP_append]
  have h1 : (bs.map Action.advance).countP isConsumeA = 0 :=
    List.countP_eq_zero.mpr fun a ha => by
      simp at ha
      obtain ⟨b0, -, rfl⟩ := ha
      simp [isConsumeA]
  simp [h1, isConsumeA]

/-- C4: in an iteration whose PTY read returns bytes, every returned byte is
fed to the parser and the frame is rendered before any keyboard event of that
iteration is processed: the trace is the parse actions for all read bytes,
then the render, then a keyboard phase that parses nothing and begins (if
non-empty) by consuming an event; at most one keyboard event is consumed in
the whole iteration. -/
theorem c4_drain_before_input (adv : Term → Nat → Term)
    (tres : Term → SizeInfo → Term) (y x : Int) (ws : List WriteRes)
    (st : LoopState) (b : Nat) (bs : List Nat) (inp : Option Input) :
    ∃ rest,
      (iteration adv tres y x ws st (ReadResult.ok (b :: bs)) inp).acts =
        (b :: bs).map Action.advance
          ++ [Action.render (border_chars.getD st.curBorderChar ' ')] ++ rest ∧
      rest.countP isAdvanceA = 0 ∧
      countConsumed (iteration adv tres y x ws st (ReadResult.ok (b :: bs)) inp).acts
        ≤ 1 ∧
      (rest = [] ∨ ∃ j rest2, rest = Action.consumeInput j :: rest2) := by
  rcases hr : (render_term_to_win ((b :: bs).foldl adv st.term) y x
      (border_chars.getD st.curBorderChar ' ')).2 with - | e
  · have hrp : readPhase adv y x st (.ok (b :: bs)) =
        .next { st with term := (b :: bs).foldl adv st.term }
          ((b :: bs).map Action.advance
            ++ [Action.render (border_chars.getD st.curBorderChar ' ')]) := by
      simp only [readPhase, hr]
    obtain ⟨hc1, hc2, -⟩ := inputPhase_consume_facts tres y x ws
      { st with term := (b :: bs).foldl adv st.term } inp
    obtain ⟨-, -, hshape⟩ := inputPhase_consume_facts tres y x ws
      { st with term := (b :: bs).foldl adv st.term } inp
    refine ⟨(inputPhase tres y x ws
        { st with term := (b :: bs).foldl adv st.term } inp).acts, ?_, hc2, ?_, hshape⟩
    · simp only [iteration, hrp, IterOut.acts_prepend, List.append_assoc]
    · simp only [iteration, hrp, IterOut.acts_prepend, countConsumed,
        List.countP_append]
      have h0 := countConsumed_read_acts (b :: bs)
        (border_chars.getD st.curBorderChar ' ')
      simp only [countConsumed, List.countP_append] at h0
      simp only [countConsumed] at hc1
      omega
  · have hrp : readPhase adv y x st (.ok (b :: bs)) =
        .halt (some (colourMsg e))
          ((b :: bs).map Action.advance
            ++ [Action.render (border_chars.getD st.curBorderChar ' ')]) := by
      simp only [readPhase, hr]
    refine ⟨[], ?_, by simp, ?_, Or.inl rfl⟩
    · simp only [iteration, hrp, IterOut.acts]
      simp
    · simp only [iteration, hrp, IterOut.acts]
      have h0 := countConsumed_read_acts (b :: bs)
        (border_chars.getD st.curBorderChar ' ')
      omega

/-- C9: in any iteration that handles a resize event while the window reports
80 columns by 24 rows, the recomputed geometry is `width = 78, height = 22`
(unit cells, zero padding), and the trace contains exactly one grid-model
resize and exactly one PTY resize, both with that geometry. -/
theorem c9_resize_propagation (adv : Term → Nat → Term)
    (tres : Term → SizeInfo → Term) (ws : List WriteRes) (st st1 : LoopState)
    (tr : List Action) (r : ReadResult)
    (h : iteration adv tres (24 : Int) (80 : Int) ws st r (some Input.keyResize) =
      .next st1 tr) :
    tr.countP isTermResizeA = 1 ∧ tr.countP isPtyResizeA = 1 ∧
    tr.count (Action.termResize (new_size_info 78 22)) = 1 ∧
    tr.count (Action.ptyResize (new_size_info 78 22)) = 1 ∧
    new_size_info 78 22 =
      { width := 78, height := 22, cell_width := 1, cell_height := 1,
        padding_x := 0, padding_y := 0 } := by
  rcases hrp : readPhase adv 24 80 st r with ⟨r0, a0⟩ | ⟨st0, a0⟩ | a0
  · rw [iteration, hrp] at h
    exact absurd h (by simp)
  · rw [iteration, hrp] at h
    have hsz : new_size_info ((80 : Int) - 2) ((24 : Int) - 2) = new_size_info 78 22 := by
      norm_num
    simp only [inputPhase, hsz, IterOut.prepend] at h
    injection h with h1 h2
    subst h2
    have hro : ∀ a ∈ a0, isAdvanceA a = true ∨ isRenderA a = true :=
      readPhase_next_acts adv 24 80 st st0 r a0 hrp
    have hz1 : a0.countP isTermResizeA = 0 := List.countP_eq_zero.mpr fun a ha => by
      rcases hro a ha with hh | hh <;> cases a <;> simp_all [isAdvanceA, isRenderA,
        isTermResizeA]
    have hz2 : a0.countP isPtyResizeA = 0 := List.countP_eq_zero.mpr fun a ha => by
      rcases hro a ha with hh | hh <;> cases a <;> simp_all [isAdvanceA, isRenderA,
        isPtyResizeA]
    have hz3 : a0.count (Action.termResize (new_size_info 78 22)) = 0 :=
      List.count_eq_zero.mpr fun hmem => by
        rcases hro _ hmem with hh | hh <;> simp [isAdvanceA, isRenderA] at hh
    have hz4 : a0.count (Action.ptyResize (new_size_info 78 22)) = 0 :=
      List.count_eq_zero.mpr fun hmem => by
        rcases hro _ hmem with hh | hh <;> simp [isAdvanceA, isRenderA] at hh
    refine ⟨?_, ?_, ?_, ?_, rfl⟩ <;>
      simp [List.countP_append, List.count_append, hz1, hz2, hz3, hz4,
        List.countP_cons, List.count_cons, isTermResizeA, isPtyResizeA]
  · rw [iteration, hrp] at h
    exact absurd h (by simp)

theorem c9_resize_propagation_witness :
    ([Action.consumeInput Input.keyResize,
      Action.termResize (new_size_info 78 22),
      Action.ptyResize (new_size_info 78 22)].countP isTermResizeA = 1 ∧
     [Action.consumeInput Input.keyResize,
      Action.termResize (new_size_info 78 22),
      Action.ptyResize (new_size_info 78 22)].countP isPtyResizeA = 1 ∧
     [Action.consumeInput Input.keyResize,
      Action.termResize (new_size_info 78 22),
      Action.ptyResize (new_size_info 78 22)].count
        (Action.termResize (new_size_info 78 22)) = 1 ∧
     [Action.consumeInput Input.keyResize,
      Action.termResize (new_size_info 78 22),
      Action.ptyResize (new_size_info 78 22)].count
        (Action.ptyResize (new_size_info 78 22)) = 1 ∧
     new_size_info 78 22 =
      { width := 78, height := 22, cell_width := 1, cell_height := 1,
        padding_x := 0, padding_y := 0 }) :=
  c9_resize_propagation (fun t _ => t) (fun t _ => t) []
    { term := { grid := [], cursorLine := 0, cursorCol := 0 }, curBorderChar := 0 }
    { term := { grid := [], cursorLine := 0, cursorCol := 0 }, curBorderChar := 0 }
    _ (ReadResult.err { kind := ErrorKind.wouldBlock, rawOsError := none, msg := "" })
    (by decide)

/-- C3 (counterexample): an iteration that performs a geometry recomputation
on a resize event (the grid model and PTY are resized: a state change) drives
the renderer nowhere — the resize arm of the loop does not render, so the
claim that the renderer runs after every state change, including a geometry
recomputation, is false. -/
theorem c3_render_after_state_change_counterexample :
    (iteration (fun t _ => t) (fun t _ => t) 24 80 []
        { term := { grid := [], cursorLine := 0, cursorCol := 0 }, curBorderChar := 0 }
        (ReadResult.err { kind := ErrorKind.wouldBlock, rawOsError := none, msg := "" })
        (some Input.keyResize)).acts.countP isTermResizeA = 1 ∧
    (iteration (fun t _ => t) (fun t _ => t) 24 80 []
        { term := { grid := [], cursorLine := 0, cursorCol := 0 }, curBorderChar := 0 }
        (ReadResult.err { kind := ErrorKind.wouldBlock, rawOsError := none, msg := "" })
        (some Input.keyResize)).acts.countP isPtyResizeA = 1 ∧
    hasRender (iteration (fun t _ => t) (fun t _ => t) 24 80 []
        { term := { grid := [], cursorLine := 0, cursorCol := 0 }, curBorderChar := 0 }
        (ReadResult.err { kind := ErrorKind.wouldBlock, rawOsError := none, msg := "" })
        (some Input.keyResize)).acts = false := by decide

/-- C3 (amended): the renderer is driven exactly after a PTY read that
returns bytes and after a border-style toggle (the intercepted control
keystroke) — never on a timer or speculatively, and in particular not on a
resize event. -/
theorem c3_render_conditions_amended (adv : Term → Nat → Term)
    (tres : Term → SizeInfo → Term) (y x : Int) (ws : List WriteRes)
    (st : LoopState) (r : ReadResult) (inp : Option Input) :
    hasRender (iteration adv tres y x ws st r inp).acts = true ↔
      ((∃ b bs, r = .ok (b :: bs)) ∨
       ((∃ st1 a1, readPhase adv y x st r = .next st1 a1) ∧
        (∃ c, inp = some (Input.character c) ∧ utf8Encode c = [4]))) := by
  cases r with
  | ok bs =>
      cases bs with
      | nil =>
          have hrp : readPhase adv y x st (.ok []) = .halt none [] := rfl
          simp only [iteration, hrp, IterOut.acts]
          simp [hasRender, hrp]
      | cons b tl =>
          rcases hr : (render_term_to_win ((b :: tl).foldl adv st.term) y x
              (border_chars.getD st.curBorderChar ' ')).2 with - | e
          · have hrp : readPhase adv y x st (.ok (b :: tl)) =
                .next { st with term := (b :: tl).foldl adv st.term }
                  ((b :: tl).map Action.advance
                    ++ [Action.render (border_chars.getD st.curBorderChar ' ')]) := by
              simp only [readPhase, hr]
            simp only [iteration, hrp, IterOut.acts_prepend]
            constructor
            · intro hh
              exact Or.inl ⟨b, tl, rfl⟩
            · intro hh
              simp [hasRender, List.any_append, isRenderA]
          · have hrp : readPhase adv y x st (.ok (b :: tl)) =
                .halt (some (colourMsg e))
                  ((b :: tl).map Action.advance
                    ++ [Action.render (border_chars.getD st.curBorderChar ' ')]) := by
              simp only [readPhase, hr]
            simp only [iteration, hrp, IterOut.acts]
            constructor
            · intro hh
              exact Or.inl ⟨b, tl, rfl⟩
            · intro hh
              simp [hasRender, List.any_append, isRenderA]
  | err e =>
      cases h1 : (e.kind == ErrorKind.other && e.rawOsError == some OS_IO_ERROR) with
      | true =>
          have hrp : readPhase adv y x st (.err e) = .halt none [] := by
            simp only [readPhase, h1]
            simp
          simp only [iteration, hrp, IterOut.acts]
          simp [hasRender, hrp]
      | false =>
          cases h2 : (e.kind != ErrorKind.interrupted
              && e.kind != ErrorKind.wouldBlock) with
          | true =>
              have hrp : readPhase adv y x st (.err e) =
                  .halt (some (ioErrMsg e)) [] := by
                simp only [readPhase, h1, h2]
                simp
              simp only [iteration, hrp, IterOut.acts]
              simp [hasRender, hrp]
          | false =>
              have hrp : readPhase adv y x st (.err e) = .next st [] := by
                simp only [readPhase, h1, h2]
                simp
              simp only [iteration, hrp, IterOut.acts_prepend, List.nil_append]
              rw [inputPhase_render_iff]
              constructor
              · intro hh
                exact Or.inr ⟨⟨st, [], rfl⟩, hh⟩
              · rintro (⟨b, bs, hh⟩ | ⟨-, hh⟩)
                · cases hh
                · exact hh

lemma renderRowCells_named (li : Nat) :
    ∀ (row : List Cell) (ci : Nat), (∀ cl ∈ row, offendCat cl.fg = none) →
      (renderRowCells li ci row).2 = none := by
  intro row
  induction row with
  | nil => intro ci h; simp [renderRowCells]
  | cons cell rest ih =>
      intro ci hall
      have hc : offendCat cell.fg = none := hall cell (List.mem_cons_self _ _)
      rcases hfg : cell.fg with n | ⟨rr, gg, bb⟩ | i
      · rcases hrec : renderRowCells li (ci + 1) rest with ⟨ops, res⟩
        have hres : res = none := by
          have := ih (ci + 1) fun cl hcl => hall cl (List.mem_cons_of_mem _ hcl)
          rw [hrec] at this
          exact this
        simp [renderRowCells, hfg, hrec, hres]
      · rw [hfg] at hc; simp [offendCat] at hc
      · rw [hfg] at hc; simp [offendCat] at hc

lemma renderRowCells_offend (li : Nat) :
    ∀ (p : List Cell) (ci : Nat) (cell : Cell) (s : List Cell) (e : RenderError),
      (∀ cl ∈ p, offendCat cl.fg = none) → offendCat cell.fg = some e →
      (renderRowCells li ci (p ++ cell :: s)).2 = some e := by
  intro p
  induction p with
  | nil =>
      intro ci cell s e _ hc
      rcases hfg : cell.fg with n | ⟨rr, gg, bb⟩ | i
      · rw [hfg] at hc; simp [offendCat] at hc
      · rw [hfg] at hc
        simp only [offendCat, Option.some_inj] at hc
        simp [renderRowCells, hfg, hc]
      · rw [hfg] at hc
        simp only [offendCat, Option.some_inj] at hc
        simp [renderRowCells, hfg, hc]
  | cons q rest ih =>
      intro ci cell s e hall hc
      have hq : offendCat q.fg = none := hall q (List.mem_cons_self _ _)
      rcases hfg : q.fg with n | ⟨rr, gg, bb⟩ | i
      · rcases hrec : renderRowCells li (ci + 1) (rest ++ cell :: s) with ⟨ops, res⟩
        have hres : res = some e := by
          have := ih (ci + 1) cell s e
            (fun cl hcl => hall cl (List.mem_cons_of_mem _ hcl)) hc
          rw [hrec] at this
          exact this
        simp [renderRowCells, hfg, hrec, hres]
      · rw [hfg] at hq; simp [offendCat] at hq
      · rw [hfg] at hq; simp [offendCat] at hq

lemma renderCells_offend (e : RenderError) :
    ∀ (P : List (List Cell)) (li : Nat) (p : List Cell) (cell : Cell)
      (s : List Cell) (S : List (List Cell)),
      (∀ rw0 ∈ P, ∀ cl ∈ rw0, offendCat cl.fg = none) →
      (∀ cl ∈ p, offendCat cl.fg = none) →
      offendCat cell.fg = some e →
      (renderCells li (P ++ (p ++ cell :: s) :: S)).2 = some e := by
  intro P
  induction P with
  | nil =>
      intro li p cell s S _ hp hc
      rcases hrow : renderRowCells li 0 (p ++ cell :: s) with ⟨ops, res⟩
      have hres : res = some e := by
        have := renderRowCells_offend li p 0 cell s e hp hc
        rw [hrow] at this
        exact this
      simp [renderCells, hrow, hres]
  | cons r0 rest ih =>
      intro li p cell s S hP hp hc
      rcases hrow : renderRowCells li 0 r0 with ⟨ops, res⟩
      have hres : res = none := by
        have := renderRowCells_named li r0 0
          (fun cl hcl => hP r0 (List.mem_cons_self _ _) cl hcl)
        rw [hrow] at this
        exact this
      have htail := ih (li + 1) p cell s S
        (fun rw0 hrw => hP rw0 (List.mem_cons_of_mem _ hrw)) hp hc
      rcases htl : renderCells (li + 1) (rest ++ (p ++ cell :: s) :: S) with ⟨ops2, res2⟩
      rw [htl] at htail
      simp [renderCells, hrow, hres, htl, htail]

/-- C6: whenever the grid the renderer walks contains a cell whose foreground
is a full colour specification or an indexed colour — located row-major after
only named-colour cells — the renderer returns the typed error of that exact
category; the event loop then records the diagnostic exit reason naming the
category and exits. -/
theorem c6_unsupported_colour (adv : Term → Nat → Term)
    (tres : Term → SizeInfo → Term) (y x : Int) (ws : List WriteRes)
    (st : LoopState) (inp : Option Input) (b : Nat) (bs : List Nat)
    (e : RenderError) (P : List (List Cell)) (p : List Cell) (cell : Cell)
    (s : List Cell) (S : List (List Cell))
    (hgrid : ((b :: bs).foldl adv st.term).grid = P ++ (p ++ cell :: s) :: S)
    (hP : ∀ rw0 ∈ P, ∀ cl ∈ rw0, offendCat cl.fg = none)
    (hp : ∀ cl ∈ p, offendCat cl.fg = none)
    (hc : offendCat cell.fg = some e) :
    (render_term_to_win ((b :: bs).foldl adv st.term) y x
        (border_chars.getD st.curBorderChar ' ')).2 = some e ∧
    iteration adv tres y x ws st (.ok (b :: bs)) inp =
      .halt (some (colourMsg e))
        ((b :: bs).map Action.advance
          ++ [Action.render (border_chars.getD st.curBorderChar ' ')]) ∧
    colourMsg e =
      "encountered a colour " ++ colourTypeStr e
        ++ ", which isn't currently supported" := by
  have hrender : (render_term_to_win ((b :: bs).foldl adv st.term) y x
      (border_chars.getD st.curBorderChar ' ')).2 = some e := by
    rw [render_snd, hgrid]
    exact renderCells_offend e P 0 p cell s S hP hp hc
  refine ⟨hrender, ?_, rfl⟩
  have hrp : readPhase adv y x st (.ok (b :: bs)) =
      .halt (some (colourMsg e))
        ((b :: bs).map Action.advance
          ++ [Action.render (border_chars.getD st.curBorderChar ' ')]) := by
    simp only [readPhase, hrender]
  simp only [iteration, hrp]

theorem c6_unsupported_colour_witness :
    iteration
      (fun _ _ => { grid := [[{ c := 'a', fg := Color.spec 1 2 3 }]],
                    cursorLine := 0, cursorCol := 0 })
      (fun t _ => t) 24 80 []
      { term := { grid := [], cursorLine := 0, cursorCol := 0 }, curBorderChar := 0 }
      (ReadResult.ok [65]) none =
      .halt (some (colourMsg RenderError.colourSpecFound))
        ([65].map Action.advance ++ [Action.render (border_chars.getD 0 ' ')]) :=
  (c6_unsupported_colour
    (fun _ _ => { grid := [[{ c := 'a', fg := Color.spec 1 2 3 }]],
                  cursorLine := 0, cursorCol := 0 })
    (fun t _ => t) 24 80 []
    { term := { grid := [], cursorLine := 0, cursorCol := 0 }, curBorderChar := 0 }
    none 65 [] RenderError.colourSpecFound [] [] { c := 'a', fg := Color.spec 1 2 3 }
    [] [] rfl (by simp) (by simp) rfl).2.1

/-- One event-loop iteration in which the read is transient (would-block) and
the keyboard delivers the control byte 4 (Ctrl-D): the border index advances
by one modulo 3, a re-render happens at once, and nothing is written to the
PTY. -/
lemma ctrlD_step (adv : Term → Nat → Term) (tres : Term → SizeInfo → Term)
    (y x : Int) (ws : List WriteRes) (t : Term) (bidx : Nat) (e : IoError)
    (he : e.kind = ErrorKind.wouldBlock)
    (hrender : (renderCells 0 t.grid).2 = none) :
    iteration adv tres y x ws { term := t, curBorderChar := bidx } (.err e)
        (some (Input.character (Char.ofNat 4))) =
      .next { term := t, curBorderChar := (bidx + 1) % 3 }
        [Action.consumeInput (Input.character (Char.ofNat 4)),
         Action.render (border_chars.getD ((bidx + 1) % 3) ' ')] := by
  obtain ⟨k, os, m⟩ := e
  simp only [IoError.kind] at he
  subst he
  have hrp : readPhase adv y x { term := t, curBorderChar := bidx }
      (.err { kind := ErrorKind.wouldBlock, rawOsError := os, msg := m }) =
      .next { term := t, curBorderChar := bidx } [] := by
    simp [readPhase]
  have hcond : ((utf8Encode (Char.ofNat 4)).length == 1
      && (utf8Encode (Char.ofNat 4)).getD 0 0 == 4) = true := by decide
  have hlen : border_chars.length = 3 := rfl
  have hrt : (render_term_to_win t y x
      (border_chars.getD ((bidx + 1) % 3) ' ')).2 = none := by
    rw [render_snd]
    exact hrender
  simp only [iteration, hrp, inputPhase, hcond, if_true, hlen, hrt,
    IterOut.prepend, List.nil_append]
  rfl

/-- C7: pressing the designated control byte (value 4) cycles the
border-style index modulo `border_chars.length = 3`, so three such
keystrokes return the style to its original value, and none of these
keystrokes results in a PTY write. -/
theorem c7_border_cycle (adv : Term → Nat → Term) (tres : Term → SizeInfo → Term)
    (y x : Int) (ws : List WriteRes) (t : Term) (bidx : Nat) (e : IoError)
    (he : e.kind = ErrorKind.wouldBlock) (hb : bidx < border_chars.length)
    (hrender : (renderCells 0 t.grid).2 = none) :
    ∃ st1 st2 st3 tr1 tr2 tr3,
      iteration adv tres y x ws { term := t, curBorderChar := bidx } (.err e)
        (some (Input.character (Char.ofNat 4))) = .next st1 tr1 ∧
      iteration adv tres y x ws st1 (.err e)
        (some (Input.character (Char.ofNat 4))) = .next st2 tr2 ∧
      iteration adv tres y x ws st2 (.err e)
        (some (Input.character (Char.ofNat 4))) = .next st3 tr3 ∧
      st1.curBorderChar ≠ bidx ∧
      st3.curBorderChar = bidx ∧ st3.term = t ∧
      (tr1 ++ tr2 ++ tr3).countP isWriteA = 0 := by
  have hb3 : bidx < 3 := hb
  refine ⟨_, _, _, _, _, _,
    ctrlD_step adv tres y x ws t bidx e he hrender,
    ctrlD_step adv tres y x ws t ((bidx + 1) % 3) e he hrender,
    ctrlD_step adv tres y x ws t (((bidx + 1) % 3 + 1) % 3) e he hrender,
    ?_, ?_, rfl, ?_⟩
  · show (bidx + 1) % 3 ≠ bidx
    omega
  · show ((((bidx + 1) % 3) + 1) % 3 + 1) % 3 = bidx
    omega
  · simp [isWriteA]

theorem c7_border_cycle_witness :
    ∃ st1 st2 st3 tr1 tr2 tr3,
      iteration (fun t _ => t) (fun t _ => t) 24 80 []
        { term := { grid := [], cursorLine := 0, cursorCol := 0 }, curBorderChar := 0 }
        (.err { kind := ErrorKind.wouldBlock, rawOsError := none, msg := "" })
        (some (Input.character (Char.ofNat 4))) = .next st1 tr1 ∧
      iteration (fun t _ => t) (fun t _ => t) 24 80 [] st1
        (.err { kind := ErrorKind.wouldBlock, rawOsError := none, msg := "" })
        (some (Input.character (Char.ofNat 4))) = .next st2 tr2 ∧
      iteration (fun t _ => t) (fun t _ => t) 24 80 [] st2
        (.err { kind := ErrorKind.wouldBlock, rawOsError := none, msg := "" })
        (some (Input.character (Char.ofNat 4))) = .next st3 tr3 ∧
      st1.curBorderChar ≠ 0 ∧
      st3.curBorderChar = 0 ∧
      st3.term = { grid := [], cursorLine := 0, cursorCol := 0 } ∧
      (tr1 ++ tr2 ++ tr3).countP isWriteA = 0 :=
  c7_border_cycle (fun t _ => t) (fun t _ => t) 24 80 []
    { grid := [], cursorLine := 0, cursorCol := 0 } 0
    { kind := ErrorKind.wouldBlock, rawOsError := none, msg := "" }
    rfl (by decide) rfl

end TermEmu
